import Mathlib

/-
Verification development for the `spear` profile generator
(`util/profilegenerator`): a shallow embedding of `generator.py`,
`util.py`, `instruction.py` and `main.py`, together with theorems about
the generated benchmark programs.

Python strings are modelled as Lean `String`; each `f.write(...)` of the
generator that ends in a newline is modelled as one (or, for `"\n\n"`,
two) elements of a list of output lines; file content is the
concatenation of the lines, each followed by a newline.  Python's
`str.split`, `str.replace`, the `in` operator on strings and the
rendering of `None` inside an f-string are modelled by executable
helpers below.
-/

/-- Model of Python `str.split(pat)` on character lists (non-overlapping,
leftmost-first), written with explicit fuel so that it is structurally
recursive; `pySplit` below always supplies sufficient fuel (every step
consumes at least one character of the subject). -/
def splitSeqF (pat : List Char) : Nat → List Char → List (List Char)
  | _, [] => [[]]
  | 0, s => [s]
  | fuel + 1, c :: cs =>
    if pat ≠ [] ∧ pat.isPrefixOf (c :: cs) then
      [] :: splitSeqF pat fuel ((c :: cs).drop pat.length)
    else
      match splitSeqF pat fuel cs with
      | [] => [[]]
      | r :: rs => (c :: r) :: rs

/-- Python `s.split(pat)` for a nonempty pattern. -/
def pySplit (s pat : String) : List String :=
  (splitSeqF pat.toList s.toList.length s.toList).map fun l => String.mk l

/-- Python `pat in s` (substring test) for a nonempty pattern `pat`:
the split yields at least two segments exactly when `pat` occurs. -/
def pyContains (s pat : String) : Bool :=
  2 ≤ (pySplit s pat).length

/-- Join a list of strings with a separator between consecutive
elements (Python `sep.join(parts)`), grouped to the right. -/
def joinSep (sep : String) : List String → String
  | [] => ""
  | [a] => a
  | a :: b :: rest => a ++ (sep ++ joinSep sep (b :: rest))

/-- Python `s.replace(pat, rep)` for a nonempty pattern, via the
standard identity `s.replace(p, r) = r.join(s.split(p))`. -/
def pyReplace (s pat rep : String) : String :=
  joinSep rep (pySplit s pat)

/-- Rendering of an optional string inside a Python f-string:
`str(None)` is the four-character string `"None"`. -/
def pyStrOpt : Option String → String
  | none => "None"
  | some s => s

/-- Append a string to the last element of a list (helper for the
complex-path template characterisation). -/
def appLast (q : String) : List String → List String
  | [] => []
  | [a] => [a ++ q]
  | a :: b :: rest => a :: appLast q (b :: rest)

/-- `concatMapRange f n = f 0 ++ f 1 ++ ... ++ f (n-1)`: the lines
written by a Python `for i in range(n)` loop whose body writes the
lines `f i`. -/
def concatMapRange {α : Type} (f : Nat → List α) : Nat → List α
  | 0 => []
  | n + 1 => concatMapRange f n ++ f n

/-- `mapRange f n = [f 0, ..., f (n-1)]`, accumulated in loop order. -/
def mapRange {α : Type} (f : Nat → α) : Nat → List α
  | 0 => []
  | n + 1 => mapRange f n ++ [f n]

/-- `instruction.py`: the descriptor for one benchmarkable instruction.
Simple descriptors populate `opcode`/`type`/`args`/`sideeffecttype`;
complex descriptors populate the `cpx_*` fields. -/
structure Instruction where
  opcode : String
  type : String
  args : List String
  sideeffecttype : Option String
  is_complex : Bool
  cpx_exec_block : String
  cpx_header_block : String
  cpx_pretext : String
  cpx_footer_block : String
  cpx_use_counter : Bool
deriving DecidableEq

/-- `Instruction.__init__`: a simple descriptor (complex fields unset). -/
def Instruction.make (opcode type : String) (args : List String)
    (sideeffecttype : Option String) : Instruction :=
  ⟨opcode, type, args, sideeffecttype, false, "", "", "", "", false⟩

/-- `Instruction.complex_instruction`: a complex descriptor (type `""`,
no operands). -/
def Instruction.complex_instruction (opcode executionblock header footer
    pretext : String) (preceed_with_counter : Bool) : Instruction :=
  ⟨opcode, "", [], none, true, executionblock, header, footer, pretext,
    preceed_with_counter⟩

namespace Util

/-- `util.py` `Util.to_comma_separated`: `", ".join(arr)` for two or
more elements, the sole element for one, `""` for none. -/
def to_comma_separated : List String → String
  | [] => ""
  | [a] => a
  | a :: b :: rest => a ++ (", " ++ to_comma_separated (b :: rest))

/-- `util.py` `Util.get_type_default`: default literal for a type tag. -/
def get_type_default (type : String) : Option String :=
  if type = "i32" then some "0"
  else if type = "i0" then some "0"
  else if type = "i8" then some "0"
  else if type = "float" then some "0.0"
  else none

end Util

/-- `Instruction.get_args`: the comma-joined operand list. -/
def Instruction.get_args (inst : Instruction) : String :=
  Util.to_comma_separated inst.args

/-- The type used for the global sink and the opaque consumption on the
simple path: `sideeffecttype` when present, else the result type. -/
def sinkTy (inst : Instruction) : String :=
  match inst.sideeffecttype with
  | some s => s
  | none => inst.type

/-- Simple-path instruction-application line `  %{i} = {op} {ty} {args}`. -/
def bindingLine (inst : Instruction) (i : Nat) : String :=
  "  %" ++ (toString i ++ (" = " ++ (inst.opcode ++ (" " ++
    (inst.type ++ (" " ++ inst.get_args))))))

/-- Simple-path opaque-consumption line. -/
def callLine (inst : Instruction) (i : Nat) : String :=
  "  call void asm sideeffect \"\", \"r\"(" ++ (sinkTy inst ++
    (" %" ++ (toString i ++ ")")))

/-- Simple-path final store line: note the fixed `%1` binding. -/
def storeLineS (inst : Instruction) : String :=
  "  store volatile " ++ (sinkTy inst ++ (" %1, " ++
    (sinkTy inst ++ "* @global")))

/-- `generator.py`, normal (non-complex) path: the lines written for a
simple descriptor with repetition count `R` (iterations `0..R`). -/
def simpleLines (inst : Instruction) (R : Nat) : List String :=
  ["@global = global " ++ (sinkTy inst ++ (" " ++
      pyStrOpt (Util.get_type_default inst.type))),
   "define i32 @main() #0 \x7b",
   "entry:"]
  ++ concatMapRange (fun i => [bindingLine inst i, callLine inst i]) (R + 1)
  ++ [storeLineS inst, "  ret i32 0", "\x7d"]

/-- `generator.py`, `"br"` special case: the jump closing each arm of
block `i` — to `block{i+1}` while `i < R`, to `end` at `i = R`. -/
def brJump (R i : Nat) : String :=
  if i < R then "  br label %block" ++ toString (i + 1)
  else "  br label %end"

/-- `generator.py`, `"br"` special case: the twelve lines written by one
iteration of the unrolled-blocks loop (trailing `""` entries come from
`"\n\n"` at the end of a write). -/
def brBlock (R i : Nat) : List String :=
  ["block" ++ (toString i ++ ":"),
   "  %v" ++ (toString i ++ " = and i32 42, 311"),
   "  br i1 true, label %then" ++ (toString i ++ (", label %else" ++ toString i)),
   "",
   "then" ++ (toString i ++ ":"),
   "  store volatile i32 %v" ++ (toString i ++ ", i32* @global"),
   brJump R i,
   "",
   "else" ++ (toString i ++ ":"),
   "  store volatile i32 %v" ++ (toString i ++ ", i32* @global"),
   brJump R i,
   ""]

/-- `generator.py`, `"br"` special case: all lines of the generated file. -/
def brLines (R : Nat) : List String :=
  ["@global = global i32 0",
   "",
   "define i32 @main() #0 \x7b",
   "entry:",
   "  br label %block0",
   ""]
  ++ concatMapRange (brBlock R) (R + 1)
  ++ ["end:", "  ret i32 0", "\x7d"]

/-- `generator.py`, `"frem"` special case: the five lines written by one
loop iteration (two volatile reloads, the remainder, the opaque use, and
the blank line from the terminating `"\n\n"`). -/
def fremIter (ty : String) (i : Nat) : List String :=
  ["  %x" ++ (toString i ++ (" = load volatile " ++ (ty ++ (", " ++ (ty ++ "* @c42"))))),
   "  %y" ++ (toString i ++ (" = load volatile " ++ (ty ++ (", " ++ (ty ++ "* @c3"))))),
   "  %r" ++ (toString i ++ (" = frem " ++ (ty ++ (" %x" ++ (toString i ++ (", %y" ++ toString i)))))),
   "  call void asm sideeffect \"\", \"x\"(" ++ (ty ++ (" %r" ++ (toString i ++ ")"))),
   ""]

/-- `generator.py`, `"frem"` special case.  The two global lines index
`args.split(",")` at `0` and `1`; the write of the first line happens
before the second index is evaluated, so a missing second part aborts
with exactly the first line already written (`Except.error` carries the
lines written before the failure). -/
def fremGen (ty args : String) (R : Nat) : Except (List String) (List String) :=
  let parts := pySplit args ","
  match parts.get? 0 with
  | none => Except.error []
  | some p0 =>
    let line1 := "@c42 = global " ++ (ty ++ (" " ++ p0))
    match parts.get? 1 with
    | none => Except.error [line1]
    | some p1 =>
      Except.ok
        ([line1,
          "@c3  = global " ++ (ty ++ (" " ++ p1)),
          "define i32 @main() #0 \x7b",
          "entry:"]
         ++ concatMapRange (fremIter ty) (R + 1)
         ++ ["  store volatile " ++ (ty ++ (" %r0, " ++ (ty ++ "* @c42"))),
             "  ret i32 0",
             "\x7d"])

/-- `generator.py`, complex path: the chunk written for iteration `i`
(one `f.write`; the execution block may span several physical lines).
With the counter flag set, the `COUNTER` placeholder is replaced by the
fresh binding `%{i}` (when present) and the block is bound to `%{i}`;
otherwise the block is emitted as-is, unbound. -/
def complexIterChunk (inst : Instruction) (i : Nat) : String :=
  let block := inst.cpx_exec_block
  if inst.cpx_use_counter then
    let block :=
      if pyContains block "COUNTER" then
        pyReplace block "COUNTER" ("%" ++ toString i)
      else block
    "  " ++ ("%" ++ (toString i ++ (" = " ++ (block ++ "\n"))))
  else
    "  " ++ (block ++ "\n")

/-- `generator.py`, complex path: all chunks written, in order. -/
def complexChunks (inst : Instruction) (R : Nat) : List String :=
  [inst.cpx_header_block ++ "\n\n",
   "define i32 @main() #0 \x7b\n",
   "entry:\n",
   inst.cpx_pretext]
  ++ mapRange (complexIterChunk inst) (R + 1)
  ++ ["  " ++ (inst.cpx_footer_block ++ "\n"),
      "  ret i32 0\n",
      "\x7d\n"]

/-- File content of a list of lines: each line followed by a newline. -/
def linesContent (ls : List String) : String :=
  String.join (ls.map fun l => l ++ "\n")

/-- Output file name for a descriptor: `"{opcode}.ll"`. -/
def fileName (inst : Instruction) : String :=
  inst.opcode ++ ".ll"

/-- `Generator.generate`, dispatch for one descriptor (checked in source
order: `"br"`, then `"frem"`, then simple vs. complex).  `Except.ok`
carries the full file content; `Except.error` carries the partial
content already written when generation aborts. -/
def genOutput (inst : Instruction) (R : Nat) : Except String String :=
  if inst.opcode = "br" then Except.ok (linesContent (brLines R))
  else if inst.opcode = "frem" then
    match fremGen inst.type inst.get_args R with
    | Except.ok ls => Except.ok (linesContent ls)
    | Except.error ls => Except.error (linesContent ls)
  else if inst.is_complex = false then
    Except.ok (linesContent (simpleLines inst R))
  else
    Except.ok (String.join (complexChunks inst R))

/-- Whether generation of one descriptor completes without error. -/
def genSucceeds (inst : Instruction) (R : Nat) : Bool :=
  match genOutput inst R with
  | Except.ok _ => true
  | Except.error _ => false

/-- A file system: file name to content. -/
def FS : Type := String → Option String

/-- Write (create or truncate) one file. -/
def upd (fs : FS) (n c : String) : FS :=
  fun m => if m = n then some c else fs m

/-- `Generator.generate` over a worklist against a file system: each
descriptor's file is created and fully written in turn; a generation
error leaves the partial content on disk and aborts the remaining
descriptors (the exception propagates out of the loop). -/
def runGen : List Instruction → Nat → FS → FS
  | [], _, fs => fs
  | inst :: rest, R, fs =>
    match genOutput inst R with
    | Except.ok c => runGen rest R (upd fs (fileName inst) c)
    | Except.error p => upd fs (fileName inst) p

/-- The names of the files a run touches (respecting the abort). -/
def writtenNames : List Instruction → Nat → List String
  | [], _ => []
  | inst :: rest, R =>
    match genOutput inst R with
    | Except.ok _ => fileName inst :: writtenNames rest R
    | Except.error _ => [fileName inst]

/-- The content a run leaves in file `n`, when it touches `n`:
determined by the worklist and `R` alone. -/
def lastWritten : List Instruction → Nat → String → Option String
  | [], _, _ => none
  | inst :: rest, R, n =>
    match genOutput inst R with
    | Except.ok c =>
      match lastWritten rest R n with
      | some v => some v
      | none => if n = fileName inst then some c else none
    | Except.error p => if n = fileName inst then some p else none

/-- An observable side effect of `main.py`'s `main`. -/
inductive Effect where
  | mkdir : Effect
  | fileWrite (name content : String) : Effect
  | stdout (msg : String) : Effect
deriving DecidableEq

/-- File-system operations among the effects (directory creation and
file writes, but not console output). -/
def isFileIO : Effect → Bool
  | Effect.mkdir => true
  | Effect.fileWrite _ _ => true
  | Effect.stdout _ => false

/-- Output-file writes only. -/
def isFileWrite : Effect → Bool
  | Effect.fileWrite _ _ => true
  | _ => false

/-- The file writes `Generator.generate` performs on a worklist, in
order, stopping at the first failing descriptor (whose partial content
has been written when the exception escapes). -/
def genEffects : List Instruction → Nat → List Effect
  | [], _ => []
  | inst :: rest, R =>
    match genOutput inst R with
    | Except.ok c => Effect.fileWrite (fileName inst) c :: genEffects rest R
    | Except.error p => [Effect.fileWrite (fileName inst) p]

/-- The `add` descriptor of the worklist in `main.py`. -/
def addInst : Instruction :=
  Instruction.make "add" "i32" ["42", "311"] none

/-- The `frem` descriptor of the worklist in `main.py`. -/
def fremInst : Instruction :=
  Instruction.make "frem" "float" ["42.0", "3.0"] none

/-- The complex `load` descriptor of the worklist in `main.py`
(counter flag set, no `COUNTER` placeholder in the block). -/
def loadCpx : Instruction :=
  Instruction.complex_instruction "load" "load volatile i8, i8* @global_src"
    "@global_src = global i8 17" "" "" true

/-- The complex `store` descriptor of the worklist in `main.py`
(counter flag unset). -/
def storeCpx : Instruction :=
  Instruction.complex_instruction "store" "store volatile i8 17, i8* @global_dst"
    "@global_dst = global i8 0" "" "" false

/-- The worklist hard-coded in `main.py`. -/
def mainWorklist : List Instruction :=
  [Instruction.complex_instruction "_noise" "" "" "" "" false,
   addInst,
   Instruction.make "fadd" "float" ["42.0", "311.0"] none,
   Instruction.make "fdiv" "float" ["42.0", "311.0"] none,
   Instruction.complex_instruction "call"
     "call void @_Z3foov()\n  call void asm sideeffect \"\", \"~\x7bmemory\x7d\"()"
     "define void @_Z3foov() #0 \x7b\n  ret void\n\x7d" "" "" false,
   Instruction.complex_instruction "getelementptr"
     "getelementptr [4 x i8], [4 x i8]* @array, i32 0, i32 2\n  call void asm sideeffect \"\", \"r\"(i8* COUNTER)"
     "@array = global [4 x i8] zeroinitializer\n@ptr_sink = global i8* null"
     "store volatile i8* %1, i8** @ptr_sink" "" true,
   loadCpx,
   Instruction.make "mul" "i32" ["42", "3"] none,
   Instruction.make "fmul" "float" ["42.0", "3.0"] none,
   Instruction.make "or" "i32" ["42", "311"] none,
   Instruction.make "and" "i32" ["42", "311"] none,
   Instruction.make "xor" "i32" ["42", "311"] none,
   Instruction.make "br" "i32" [] none,
   fremInst,
   Instruction.make "urem" "i32" ["42", "3"] none,
   Instruction.make "sdiv" "i32" ["42", "3"] none,
   Instruction.complex_instruction "select"
     "select i1 true, i64 17, i64 42\n  call void asm sideeffect \"\", \"r\"(i64 COUNTER)"
     "@global = global i64 0" "store volatile i64 %1, i64* @global" "" true,
   Instruction.complex_instruction "sext"
     "sext i32 257 to i64\n  call void asm sideeffect \"\", \"r\"(i64 COUNTER)"
     "@global = global i64 0" "store volatile i64 %1, i64* @global" "" true,
   Instruction.complex_instruction "zext"
     "zext i32 257 to i64\n  call void asm sideeffect \"\", \"r\"(i64 COUNTER)"
     "@global = global i64 0" "store volatile i64 %1, i64* @global" "" true,
   Instruction.make "icmp ne" "i32" ["252", "42"] (some "i1"),
   Instruction.make "icmp sge" "i32" ["252", "42"] (some "i1"),
   Instruction.make "icmp sgt" "i32" ["252", "42"] (some "i1"),
   Instruction.make "icmp sle" "i32" ["252", "42"] (some "i1"),
   Instruction.make "icmp slt" "i32" ["252", "42"] (some "i1"),
   Instruction.make "icmp uge" "i32" ["252", "42"] (some "i1"),
   Instruction.make "icmp ule" "i32" ["252", "42"] (some "i1"),
   Instruction.make "icmp ult" "i32" ["252", "42"] (some "i1"),
   Instruction.make "shl" "i32" ["42", "1"] none,
   Instruction.make "lshr" "i32" ["42", "1"] none,
   Instruction.make "srem" "i32" ["42", "3"] none,
   storeCpx,
   Instruction.make "sub" "i32" ["42", "311"] none,
   Instruction.make "fsub" "float" ["42.0", "311.0"] none,
   Instruction.make "udiv" "i32" ["42", "3"] none]

/-- `main.py` `main`: the directory is created unconditionally (before
the repetition check); generation runs only for a positive repetition
count, else a diagnostic is printed. -/
def mainTrace (reps : Int) : List Effect :=
  Effect.mkdir ::
    (if 0 < reps then genEffects mainWorklist reps.toNat
     else [Effect.stdout "Repetitions must be greater than 0"])

/-- Demonstration descriptor with a result type the default-value table
does not recognise (simple path). -/
def ptrInst : Instruction :=
  Instruction.make "ptrop" "ptr" ["null"] none

/-- Demonstration `frem` descriptor whose single operand literal
contains a comma. -/
def fremCommaInst : Instruction :=
  Instruction.make "frem" "float" ["1,2"] none

/-- `l` starts with `p` (on the underlying character lists). -/
def lineStarts (p l : String) : Bool :=
  p.toList.isPrefixOf l.toList

/-- A simple-path instruction-application line: starts with `"  %"`. -/
def isBindingLine (l : String) : Bool := lineStarts "  %" l

/-- A global declaration line: starts with `"@"`. -/
def isGlobalLine (l : String) : Bool := lineStarts "@" l

/-- A store line: starts with `"  store"`. -/
def isStoreLine (l : String) : Bool := lineStarts "  store" l

/-- A chain-block label of the `"br"` program: `block{i}:` or `end:`. -/
def isChainLabel (l : String) : Bool :=
  lineStarts "block" l || lineStarts "end:" l

/-- An arm-block label of the `"br"` program: `then{i}:` or `else{i}:`. -/
def isArmLabel (l : String) : Bool :=
  lineStarts "then" l || lineStarts "else" l

/-- A remainder-computation line of the `"frem"` program. -/
def isFremLine (l : String) : Bool := lineStarts "  %r" l

/-- A volatile reload line of the `"frem"` program. -/
def isReloadLine (l : String) : Bool :=
  lineStarts "  %x" l || lineStarts "  %y" l

/-- An empty file system. -/
def fsA : FS := fun _ => none

/-- A file system with unrelated pre-existing content. -/
def fsB : FS := fun n => if n = "stale.txt" then some "stale" else none

/-- The lines `fremGen` produces for the worklist's `frem` descriptor
(`type` `"float"`, operand string `"42.0, 3.0"`, whose split on `","`
yields `"42.0"` and `" 3.0"` — note the leading space in the second
global's initializer). -/
def fremLinesC (R : Nat) : List String :=
  ["@c42 = global float 42.0",
   "@c3  = global float  3.0",
   "define i32 @main() #0 \x7b",
   "entry:"]
  ++ concatMapRange (fremIter "float") (R + 1)
  ++ ["  store volatile float %r0, float* @c42",
      "  ret i32 0",
      "\x7d"]

theorem preOf_append_left (p a r : List Char) (h : p.isPrefixOf a = true) :
    p.isPrefixOf (a ++ r) = true := by
  induction p generalizing a with
  | nil => simp [List.isPrefixOf]
  | cons x xs ih =>
    cases a with
    | nil => simp [List.isPrefixOf] at h
    | cons y ys =>
      simp only [List.cons_append, List.isPrefixOf, Bool.and_eq_true] at h ⊢
      exact ⟨h.1, ih ys h.2⟩

theorem preOf_append_cases (p a r : List Char) (h : p.isPrefixOf (a ++ r) = true) :
    p.isPrefixOf a = true ∨ a.isPrefixOf p = true := by
  induction p generalizing a with
  | nil => left; simp [List.isPrefixOf]
  | cons x xs ih =>
    cases a with
    | nil => right; simp [List.isPrefixOf]
    | cons y ys =>
      simp only [List.cons_append, List.isPrefixOf, Bool.and_eq_true] at h ⊢
      rcases ih ys h.2 with h' | h'
      · exact Or.inl ⟨h.1, h'⟩
      · exact Or.inr ⟨BEq.symm h.1, h'⟩

theorem lineStartsTrue (p a r : String) (h : p.toList.isPrefixOf a.toList = true) :
    lineStarts p (a ++ r) = true := by
  unfold lineStarts
  rw [show (a ++ r).toList = a.toList ++ r.toList from rfl]
  exact preOf_append_left _ _ _ h

theorem lineStartsFalse (p a r : String)
    (h1 : p.toList.isPrefixOf a.toList = false)
    (h2 : a.toList.isPrefixOf p.toList = false) :
    lineStarts p (a ++ r) = false := by
  unfold lineStarts
  rw [show (a ++ r).toList = a.toList ++ r.toList from rfl]
  cases hc : (p.toList.isPrefixOf (a.toList ++ r.toList)) with
  | false => rfl
  | true =>
    rcases preOf_append_cases _ _ _ hc with h | h
    · rw [h1] at h; exact absurd h (by simp)
    · rw [h2] at h; exact absurd h (by simp)

theorem countP_concatMapRange {α : Type} (p : α → Bool) (f : Nat → List α)
    (c : Nat) (h : ∀ i, (f i).countP p = c) :
    ∀ n, (concatMapRange f n).countP p = n * c := by
  intro n
  induction n with
  | zero => simp [concatMapRange]
  | succ n ih =>
    simp only [concatMapRange, List.countP_append, ih, h n]
    ring

theorem filter_concatMapRange {α : Type} (p : α → Bool) (f : Nat → List α)
    (g : Nat → α) (h : ∀ i, (f i).filter p = [g i]) :
    ∀ n, (concatMapRange f n).filter p = mapRange g n := by
  intro n
  induction n with
  | zero => simp [concatMapRange, mapRange]
  | succ n ih =>
    simp only [concatMapRange, mapRange, List.filter_append, ih, h n]

theorem isInfixAppL {α : Type} {l a : List α} (b : List α) (h : l <:+: a) :
    l <:+: a ++ b := by
  obtain ⟨s, t, rfl⟩ := h
  exact ⟨s, t ++ b, by simp⟩

theorem isInfixAppR {α : Type} {l b : List α} (a : List α) (h : l <:+: b) :
    l <:+: a ++ b := by
  obtain ⟨s, t, rfl⟩ := h
  exact ⟨a ++ s, t, by simp⟩

theorem isInfixConcatMapRange {α : Type} (f : Nat → List α) {l : List α}
    {i : Nat} : ∀ {n : Nat}, i < n → l <:+: f i → l <:+: concatMapRange f n := by
  intro n
  induction n with
  | zero => intro h; omega
  | succ n ih =>
    intro hin hl
    rcases Nat.lt_succ_iff_lt_or_eq.mp hin with h' | rfl
    · exact isInfixAppL _ (ih h' hl)
    · exact isInfixAppR _ hl

theorem mapRange_const {α : Type} (c : α) :
    ∀ n, mapRange (fun _ => c) n = List.replicate n c := by
  intro n
  induction n with
  | zero => rfl
  | succ n ih => rw [mapRange, ih, List.replicate_succ']

theorem joinSep_cons_cons (sep a b : String) (l : List String) :
    joinSep sep (a :: b :: l) = a ++ (sep ++ joinSep sep (b :: l)) := rfl

theorem joinSep_pre (sep p a : String) (l : List String) :
    joinSep sep ((p ++ a) :: l) = p ++ joinSep sep (a :: l) := by
  cases l with
  | nil => rfl
  | cons b rest => simp [joinSep_cons_cons, String.append_assoc]

theorem appLast_ne_nil (q : String) (l : List String) (h : l ≠ []) :
    appLast q l ≠ [] := by
  cases l with
  | nil => exact absurd rfl h
  | cons a t => cases t <;> simp [appLast]

theorem appLast_length (q : String) :
    ∀ l : List String, (appLast q l).length = l.length := by
  intro l
  induction l with
  | nil => rfl
  | cons a t ih =>
    cases t with
    | nil => rfl
    | cons b rest => simpa [appLast] using ih

theorem joinSep_appLast (sep q : String) :
    ∀ l : List String, l ≠ [] →
      joinSep sep (appLast q l) = joinSep sep l ++ q := by
  intro l
  induction l with
  | nil => intro h; exact absurd rfl h
  | cons a t ih =>
    intro _
    cases t with
    | nil => rfl
    | cons b rest =>
      have hne : appLast q (b :: rest) ≠ [] := appLast_ne_nil _ _ (by simp)
      obtain ⟨c, l', hcl⟩ := List.exists_cons_of_ne_nil hne
      rw [show appLast q (a :: b :: rest) = a :: appLast q (b :: rest) from rfl,
        hcl, joinSep_cons_cons, ← hcl, ih (by simp), joinSep_cons_cons,
        String.append_assoc, String.append_assoc]

theorem splitSeqF_ne_nil (pat : List Char) :
    ∀ fuel s, splitSeqF pat fuel s ≠ [] := by
  intro fuel
  induction fuel with
  | zero => intro s; cases s <;> simp [splitSeqF]
  | succ fuel ih =>
    intro s
    cases s with
    | nil => simp [splitSeqF]
    | cons c cs =>
      rw [splitSeqF]
      split
      · simp
      · cases h : splitSeqF pat fuel cs <;> simp

theorem splitSeqF_single (sep : Char) :
    ∀ fuel s, (∀ c ∈ s, c ≠ sep) → splitSeqF [sep] fuel s = [s] := by
  intro fuel
  induction fuel with
  | zero => intro s _; cases s <;> rfl
  | succ fuel ih =>
    intro s hs
    cases s with
    | nil => rfl
    | cons c cs =>
      rw [splitSeqF]
      have hc : c ≠ sep := hs c (by simp)
      have hpre : ([sep].isPrefixOf (c :: cs)) = false := by
        simp [List.isPrefixOf]
        exact fun h => absurd h.symm hc
      rw [if_neg (by simp [hpre])]
      rw [ih cs (fun x hx => hs x (by simp [hx]))]

theorem filter_concatMapRange_nil {α : Type} (p : α → Bool) (f : Nat → List α)
    (h : ∀ i, (f i).filter p = []) :
    ∀ n, (concatMapRange f n).filter p = [] := by
  intro n
  induction n with
  | zero => simp [concatMapRange]
  | succ n ih => simp only [concatMapRange, List.filter_append, ih, h n, List.append_nil]

theorem mapRange_length {α : Type} (f : Nat → α) :
    ∀ n, (mapRange f n).length = n := by
  intro n
  induction n with
  | zero => rfl
  | succ n ih => simp [mapRange, ih]

theorem stp_global (x : String) : isStoreLine ("@global = global " ++ x) = false :=
  lineStartsFalse _ _ _ (by decide) (by decide)

theorem stp_bind (x : String) : isStoreLine ("  %" ++ x) = false :=
  lineStartsFalse _ _ _ (by decide) (by decide)

theorem stp_call (x : String) :
    isStoreLine ("  call void asm sideeffect \"\", \"r\"(" ++ x) = false :=
  lineStartsFalse _ _ _ (by decide) (by decide)

theorem stp_store (x : String) : isStoreLine ("  store volatile " ++ x) = true :=
  lineStartsTrue _ _ _ (by decide)

theorem bp_global (x : String) : isBindingLine ("@global = global " ++ x) = false :=
  lineStartsFalse _ _ _ (by decide) (by decide)

theorem bp_bind (x : String) : isBindingLine ("  %" ++ x) = true :=
  lineStartsTrue _ _ _ (by decide)

theorem bp_call (x : String) :
    isBindingLine ("  call void asm sideeffect \"\", \"r\"(" ++ x) = false :=
  lineStartsFalse _ _ _ (by decide) (by decide)

theorem bp_store (x : String) : isBindingLine ("  store volatile " ++ x) = false :=
  lineStartsFalse _ _ _ (by decide) (by decide)

theorem gp_global (x : String) : isGlobalLine ("@global = global " ++ x) = true :=
  lineStartsTrue _ _ _ (by decide)

theorem gp_bind (x : String) : isGlobalLine ("  %" ++ x) = false :=
  lineStartsFalse _ _ _ (by decide) (by decide)

theorem gp_call (x : String) :
    isGlobalLine ("  call void asm sideeffect \"\", \"r\"(" ++ x) = false :=
  lineStartsFalse _ _ _ (by decide) (by decide)

theorem gp_store (x : String) : isGlobalLine ("  store volatile " ++ x) = false :=
  lineStartsFalse _ _ _ (by decide) (by decide)

/-- The simple-path dispatch of `Generator.generate`: a non-complex
descriptor whose opcode is neither `"br"` nor `"frem"` takes the
normal path. -/
theorem genOutput_simple (inst : Instruction) (R : Nat)
    (hbr : inst.opcode ≠ "br") (hfrem : inst.opcode ≠ "frem")
    (hcx : inst.is_complex = false) :
    genOutput inst R = Except.ok (linesContent (simpleLines inst R)) := by
  unfold genOutput
  rw [if_neg hbr, if_neg hfrem, if_pos hcx]

theorem simpleLines_check :
    simpleLines (Instruction.make "add" "i32" ["42", "311"] none) 1 =
      ["@global = global i32 0",
       "define i32 @main() #0 \x7b",
       "entry:",
       "  %0 = add i32 42, 311",
       "  call void asm sideeffect \"\", \"r\"(i32 %0)",
       "  %1 = add i32 42, 311",
       "  call void asm sideeffect \"\", \"r\"(i32 %1)",
       "  store volatile i32 %1, i32* @global",
       "  ret i32 0",
       "\x7d"] := by
  decide

/-- Claim C3: the default-literal lookup is a pure function mapping
`"i32"`, `"i8"` and `"i0"` to `"0"` and `"float"` to `"0.0"`, and
yielding no literal for every other input string. -/
theorem claim_C3 :
    (Util.get_type_default "i32" = some "0" ∧
     Util.get_type_default "i8" = some "0" ∧
     Util.get_type_default "i0" = some "0" ∧
     Util.get_type_default "float" = some "0.0") ∧
    ∀ s : String, s ≠ "i32" → s ≠ "i8" → s ≠ "i0" → s ≠ "float" →
      Util.get_type_default s = none := by
  constructor
  · exact ⟨by decide, by decide, by decide, by decide⟩
  · intro s h32 h8 h0 hf
    unfold Util.get_type_default
    rw [if_neg h32, if_neg h0, if_neg h8, if_neg hf]

theorem claim_C3_witness : Util.get_type_default "ptr" = none :=
  claim_C3.2 "ptr" (by decide) (by decide) (by decide) (by decide)

/-- Claim C1, counterexample: for the `add` descriptor with `R = 2`,
the generated simple-path file does not contain a store of the first
iteration's binding `%0`; the store line it contains stores `%1`. -/
theorem claim_C1_counterexample :
    ("  store volatile i32 %0, i32* @global" ∉ simpleLines addInst 2) ∧
    "  store volatile i32 %1, i32* @global" ∈ simpleLines addInst 2 := by
  constructor
  · decide
  · decide

/-- Claim C1 (amended): on the simple path, after the `R + 1` iteration
bindings, the generator emits exactly one store line, and it stores the
second iteration's binding `%1` (not the first iteration's `%0`) into
the global sink. -/
theorem claim_C1 (inst : Instruction) (R : Nat)
    (hbr : inst.opcode ≠ "br") (hfrem : inst.opcode ≠ "frem")
    (hcx : inst.is_complex = false) (hR : 1 ≤ R) :
    (simpleLines inst R).filter isStoreLine =
      ["  store volatile " ++ (sinkTy inst ++ (" %1, " ++
        (sinkTy inst ++ "* @global")))] ∧
    genOutput inst R = Except.ok (linesContent (simpleLines inst R)) := by
  refine ⟨?_, genOutput_simple inst R hbr hfrem hcx⟩
  unfold simpleLines
  rw [List.filter_append, List.filter_append]
  rw [filter_concatMapRange_nil isStoreLine _
    (fun i => by
      simp [List.filter_cons, bindingLine, callLine, stp_bind, stp_call]) (R + 1)]
  simp [List.filter_cons, stp_global, stp_store, storeLineS,
    show isStoreLine "define i32 @main() #0 \x7b" = false from by decide,
    show isStoreLine "entry:" = false from by decide,
    show isStoreLine "  ret i32 0" = false from by decide,
    show isStoreLine "\x7d" = false from by decide]

theorem claim_C1_witness :
    (simpleLines addInst 2).filter isStoreLine =
      ["  store volatile " ++ (sinkTy addInst ++ (" %1, " ++
        (sinkTy addInst ++ "* @global")))] ∧
    genOutput addInst 2 = Except.ok (linesContent (simpleLines addInst 2)) :=
  claim_C1 addInst 2 (by decide) (by decide) rfl (by decide)

/-- Claim C4: for every simple-path descriptor and `R ≥ 1`, the
generated file contains exactly `R + 1` instruction-application lines
(the bindings `%0` through `%R`, each applying the opcode to the type
and operand list) and exactly one global declaration line. -/
theorem claim_C4 (inst : Instruction) (R : Nat)
    (hbr : inst.opcode ≠ "br") (hfrem : inst.opcode ≠ "frem")
    (hcx : inst.is_complex = false) (hR : 1 ≤ R) :
    (simpleLines inst R).filter isBindingLine = mapRange (bindingLine inst) (R + 1) ∧
    ((simpleLines inst R).filter isBindingLine).length = R + 1 ∧
    (simpleLines inst R).countP isGlobalLine = 1 ∧
    genOutput inst R = Except.ok (linesContent (simpleLines inst R)) := by
  have hfilter : (simpleLines inst R).filter isBindingLine =
      mapRange (bindingLine inst) (R + 1) := by
    unfold simpleLines
    rw [List.filter_append, List.filter_append]
    rw [filter_concatMapRange (p := isBindingLine) _ (bindingLine inst)
      (fun i => by
        simp [List.filter_cons, bindingLine, callLine, bp_bind, bp_call]) (R + 1)]
    simp [List.filter_cons, bp_global, bp_store, storeLineS,
      show isBindingLine "define i32 @main() #0 \x7b" = false from by decide,
      show isBindingLine "entry:" = false from by decide,
      show isBindingLine "  ret i32 0" = false from by decide,
      show isBindingLine "\x7d" = false from by decide]
  refine ⟨hfilter, by rw [hfilter, mapRange_length], ?_,
    genOutput_simple inst R hbr hfrem hcx⟩
  unfold simpleLines
  rw [List.countP_append, List.countP_append]
  rw [countP_concatMapRange isGlobalLine _ 0
    (fun i => by
      simp [List.countP_cons, bindingLine, callLine, gp_bind, gp_call]) (R + 1)]
  simp [List.countP_cons, gp_global, gp_store, storeLineS,
    show isGlobalLine "define i32 @main() #0 \x7b" = false from by decide,
    show isGlobalLine "entry:" = false from by decide,
    show isGlobalLine "  ret i32 0" = false from by decide,
    show isGlobalLine "\x7d" = false from by decide]

theorem claim_C4_witness :
    (simpleLines addInst 2).filter isBindingLine = mapRange (bindingLine addInst) 3 ∧
    ((simpleLines addInst 2).filter isBindingLine).length = 3 ∧
    (simpleLines addInst 2).countP isGlobalLine = 1 ∧
    genOutput addInst 2 = Except.ok (linesContent (simpleLines addInst 2)) :=
  claim_C4 addInst 2 (by decide) (by decide) rfl (by decide)

/-- Claim C2, counterexample: for a simple-path descriptor with the
unrecognized result type `"ptr"`, generation succeeds (no configuration
error) and the file that is written contains the silently substituted
initializer `None`. -/
theorem claim_C2_counterexample :
    genSucceeds ptrInst 1 = true ∧
    "@global = global ptr None" ∈ simpleLines ptrInst 1 := by
  constructor
  · decide
  · decide

/-- Claim C2 (amended): for every simple-path descriptor whose result
type the default-value table does not recognize, generation does not
fail; the full file is written, with the Python rendering `"None"` of
the absent lookup silently substituted as the global initializer. -/
theorem claim_C2 (inst : Instruction) (R : Nat)
    (hbr : inst.opcode ≠ "br") (hfrem : inst.opcode ≠ "frem")
    (hcx : inst.is_complex = false)
    (habs : Util.get_type_default inst.type = none) :
    genSucceeds inst R = true ∧
    (simpleLines inst R).head? =
      some ("@global = global " ++ (sinkTy inst ++ " None")) := by
  constructor
  · unfold genSucceeds
    rw [genOutput_simple inst R hbr hfrem hcx]
  · unfold simpleLines
    rw [habs]
    rw [show pyStrOpt none = "None" from rfl,
      show (" " ++ "None" : String) = " None" from by decide]
    rfl

theorem claim_C2_witness :
    genSucceeds ptrInst 3 = true ∧
    (simpleLines ptrInst 3).head? =
      some ("@global = global " ++ (sinkTy ptrInst ++ " None")) :=
  claim_C2 ptrInst 3 (by decide) (by decide) rfl (by decide)

theorem chainLabel_pre (x : String) : isChainLabel ("block" ++ x) = true := by
  unfold isChainLabel
  rw [lineStartsTrue "block" "block" x (by decide)]
  rfl

theorem chainLabel_not (a : String)
    (h1 : "block".toList.isPrefixOf a.toList = false)
    (h2 : a.toList.isPrefixOf "block".toList = false)
    (h3 : "end:".toList.isPrefixOf a.toList = false)
    (h4 : a.toList.isPrefixOf "end:".toList = false) :
    ∀ x, isChainLabel (a ++ x) = false := by
  intro x
  unfold isChainLabel
  rw [lineStartsFalse _ _ _ h1 h2, lineStartsFalse _ _ _ h3 h4]
  rfl

theorem armLabel_then (x : String) : isArmLabel ("then" ++ x) = true := by
  unfold isArmLabel
  rw [lineStartsTrue "then" "then" x (by decide)]
  rfl

theorem armLabel_else (x : String) : isArmLabel ("else" ++ x) = true := by
  unfold isArmLabel
  rw [lineStartsFalse "then" "else" x (by decide) (by decide),
    lineStartsTrue "else" "else" x (by decide)]
  rfl

theorem armLabel_not (a : String)
    (h1 : "then".toList.isPrefixOf a.toList = false)
    (h2 : a.toList.isPrefixOf "then".toList = false)
    (h3 : "else".toList.isPrefixOf a.toList = false)
    (h4 : a.toList.isPrefixOf "else".toList = false) :
    ∀ x, isArmLabel (a ++ x) = false := by
  intro x
  unfold isArmLabel
  rw [lineStartsFalse _ _ _ h1 h2, lineStartsFalse _ _ _ h3 h4]
  rfl

theorem brJump_chain (R i : Nat) : isChainLabel (brJump R i) = false := by
  unfold brJump
  split
  · exact chainLabel_not "  br label %block"
      (by decide) (by decide) (by decide) (by decide) _
  · decide

theorem brJump_arm (R i : Nat) : isArmLabel (brJump R i) = false := by
  unfold brJump
  split
  · exact armLabel_not "  br label %block"
      (by decide) (by decide) (by decide) (by decide) _
  · decide

theorem brBlock_chain (R i : Nat) : (brBlock R i).countP isChainLabel = 1 := by
  simp [brBlock, List.countP_cons, chainLabel_pre, brJump_chain R i,
    chainLabel_not "  %v" (by decide) (by decide) (by decide) (by decide),
    chainLabel_not "  br i1 true, label %then" (by decide) (by decide) (by decide) (by decide),
    chainLabel_not "then" (by decide) (by decide) (by decide) (by decide),
    chainLabel_not "else" (by decide) (by decide) (by decide) (by decide),
    chainLabel_not "  store volatile i32 %v" (by decide) (by decide) (by decide) (by decide),
    show isChainLabel "" = false from by decide]

theorem brBlock_arm (R i : Nat) : (brBlock R i).countP isArmLabel = 2 := by
  simp [brBlock, List.countP_cons, armLabel_then, armLabel_else, brJump_arm R i,
    armLabel_not "block" (by decide) (by decide) (by decide) (by decide),
    armLabel_not "  %v" (by decide) (by decide) (by decide) (by decide),
    armLabel_not "  br i1 true, label %then" (by decide) (by decide) (by decide) (by decide),
    armLabel_not "  store volatile i32 %v" (by decide) (by decide) (by decide) (by decide),
    show isArmLabel "" = false from by decide]

/-- Claim C5: the `"br"` program for repetition count `R ≥ 1` has
exactly `R + 2` chain-block labels (`block0 .. blockR` and `end`) and
`2 * (R + 1)` arm-block labels; each arm of block `i` stores the dummy
value to the shared global and then branches to `block{i+1}` when
`i < R` and to `end` when `i = R`; and the `end` block returns success. -/
theorem claim_C5 (R : Nat) (hR : 1 ≤ R) :
    (brLines R).countP isChainLabel = R + 2 ∧
    (brLines R).countP isArmLabel = 2 * (R + 1) ∧
    (∀ i, i ≤ R →
      ["then" ++ (toString i ++ ":"),
       "  store volatile i32 %v" ++ (toString i ++ ", i32* @global"),
       if i < R then "  br label %block" ++ toString (i + 1) else "  br label %end"]
        <:+: brLines R ∧
      ["else" ++ (toString i ++ ":"),
       "  store volatile i32 %v" ++ (toString i ++ ", i32* @global"),
       if i < R then "  br label %block" ++ toString (i + 1) else "  br label %end"]
        <:+: brLines R) ∧
    ["end:", "  ret i32 0"] <:+: brLines R ∧
    genOutput (Instruction.make "br" "i32" [] none) R =
      Except.ok (linesContent (brLines R)) := by
  refine ⟨?_, ?_, ?_, ?_, rfl⟩
  · unfold brLines
    rw [List.countP_append, List.countP_append,
      countP_concatMapRange isChainLabel _ 1 (brBlock_chain R) (R + 1)]
    simp [List.countP_cons,
      show isChainLabel "@global = global i32 0" = false from by decide,
      show isChainLabel "" = false from by decide,
      show isChainLabel "define i32 @main() #0 \x7b" = false from by decide,
      show isChainLabel "entry:" = false from by decide,
      show isChainLabel "  br label %block0" = false from by decide,
      show isChainLabel "end:" = true from by decide,
      show isChainLabel "  ret i32 0" = false from by decide,
      show isChainLabel "\x7d" = false from by decide]
  · unfold brLines
    rw [List.countP_append, List.countP_append,
      countP_concatMapRange isArmLabel _ 2 (brBlock_arm R) (R + 1)]
    simp [List.countP_cons,
      show isArmLabel "@global = global i32 0" = false from by decide,
      show isArmLabel "" = false from by decide,
      show isArmLabel "define i32 @main() #0 \x7b" = false from by decide,
      show isArmLabel "entry:" = false from by decide,
      show isArmLabel "  br label %block0" = false from by decide,
      show isArmLabel "end:" = false from by decide,
      show isArmLabel "  ret i32 0" = false from by decide,
      show isArmLabel "\x7d" = false from by decide]
    ring
  · intro i hi
    have hthen :
        ["then" ++ (toString i ++ ":"),
         "  store volatile i32 %v" ++ (toString i ++ ", i32* @global"),
         brJump R i] <:+: brBlock R i :=
      ⟨["block" ++ (toString i ++ ":"),
        "  %v" ++ (toString i ++ " = and i32 42, 311"),
        "  br i1 true, label %then" ++ (toString i ++ (", label %else" ++ toString i)),
        ""],
       ["",
        "else" ++ (toString i ++ ":"),
        "  store volatile i32 %v" ++ (toString i ++ ", i32* @global"),
        brJump R i,
        ""], rfl⟩
    have helse :
        ["else" ++ (toString i ++ ":"),
         "  store volatile i32 %v" ++ (toString i ++ ", i32* @global"),
         brJump R i] <:+: brBlock R i :=
      ⟨["block" ++ (toString i ++ ":"),
        "  %v" ++ (toString i ++ " = and i32 42, 311"),
        "  br i1 true, label %then" ++ (toString i ++ (", label %else" ++ toString i)),
        "",
        "then" ++ (toString i ++ ":"),
        "  store volatile i32 %v" ++ (toString i ++ ", i32* @global"),
        brJump R i,
        ""],
       [""], rfl⟩
    have hin : i < R + 1 := by omega
    constructor
    · exact isInfixAppL _ (isInfixAppR _
        (isInfixConcatMapRange (brBlock R) hin hthen))
    · exact isInfixAppL _ (isInfixAppR _
        (isInfixConcatMapRange (brBlock R) hin helse))
  · exact isInfixAppR _ ⟨[], ["\x7d"], rfl⟩

theorem claim_C5_witness :
    (brLines 1).countP isChainLabel = 3 ∧
    (brLines 1).countP isArmLabel = 4 ∧
    (["then" ++ (toString 1 ++ ":"),
      "  store volatile i32 %v" ++ (toString 1 ++ ", i32* @global"),
      if 1 < 1 then "  br label %block" ++ toString 2 else "  br label %end"]
       <:+: brLines 1) ∧
    ["end:", "  ret i32 0"] <:+: brLines 1 := by
  have h := claim_C5 1 (by decide)
  exact ⟨h.1, h.2.1, (h.2.2.1 1 (by decide)).1, h.2.2.2.1⟩

theorem fremGen_eval (R : Nat) :
    fremGen fremInst.type fremInst.get_args R = Except.ok (fremLinesC R) := rfl

theorem fremLine_r (x : String) : isFremLine ("  %r" ++ x) = true := by
  unfold isFremLine
  exact lineStartsTrue "  %r" "  %r" x (by decide)

theorem fremLine_not (a : String)
    (h1 : "  %r".toList.isPrefixOf a.toList = false)
    (h2 : a.toList.isPrefixOf "  %r".toList = false) :
    ∀ x, isFremLine (a ++ x) = false := by
  intro x
  unfold isFremLine
  exact lineStartsFalse _ _ _ h1 h2

theorem reload_x (x : String) : isReloadLine ("  %x" ++ x) = true := by
  unfold isReloadLine
  rw [lineStartsTrue "  %x" "  %x" x (by decide)]
  rfl

theorem reload_y (x : String) : isReloadLine ("  %y" ++ x) = true := by
  unfold isReloadLine
  rw [lineStartsFalse "  %x" "  %y" x (by decide) (by decide),
    lineStartsTrue "  %y" "  %y" x (by decide)]
  rfl

theorem reload_not (a : String)
    (h1 : "  %x".toList.isPrefixOf a.toList = false)
    (h2 : a.toList.isPrefixOf "  %x".toList = false)
    (h3 : "  %y".toList.isPrefixOf a.toList = false)
    (h4 : a.toList.isPrefixOf "  %y".toList = false) :
    ∀ x, isReloadLine (a ++ x) = false := by
  intro x
  unfold isReloadLine
  rw [lineStartsFalse _ _ _ h1 h2, lineStartsFalse _ _ _ h3 h4]
  rfl

theorem fremIter_frem_count (i : Nat) :
    (fremIter "float" i).countP isFremLine = 1 := by
  simp [fremIter, List.countP_cons, fremLine_r,
    fremLine_not "  %x" (by decide) (by decide),
    fremLine_not "  %y" (by decide) (by decide),
    fremLine_not "  call void asm sideeffect \"\", \"x\"(" (by decide) (by decide),
    show isFremLine "" = false from by decide]

theorem fremIter_reload_count (i : Nat) :
    (fremIter "float" i).countP isReloadLine = 2 := by
  simp [fremIter, List.countP_cons, reload_x, reload_y,
    reload_not "  %r" (by decide) (by decide) (by decide) (by decide),
    reload_not "  call void asm sideeffect \"\", \"x\"(" (by decide) (by decide) (by decide) (by decide),
    show isReloadLine "" = false from by decide]

theorem stp_not (a : String)
    (h1 : "  store".toList.isPrefixOf a.toList = false)
    (h2 : a.toList.isPrefixOf "  store".toList = false) :
    ∀ x, isStoreLine (a ++ x) = false := by
  intro x
  unfold isStoreLine
  exact lineStartsFalse _ _ _ h1 h2

theorem fremIter_store_none (i : Nat) :
    (fremIter "float" i).filter isStoreLine = [] := by
  simp [fremIter, List.filter_cons,
    stp_not "  %x" (by decide) (by decide),
    stp_not "  %y" (by decide) (by decide),
    stp_not "  %r" (by decide) (by decide),
    stp_not "  call void asm sideeffect \"\", \"x\"(" (by decide) (by decide),
    show isStoreLine "" = false from by decide]

/-- Claim C6: the `"frem"` program for the worklist's `frem` descriptor
and `R ≥ 1` contains exactly `R + 1` remainder computations, each
immediately preceded by two fresh volatile reloads of the two operand
globals, and exactly one store after the loop — of the first
iteration's result `%r0`. -/
theorem claim_C6 (R : Nat) (hR : 1 ≤ R) :
    fremGen fremInst.type fremInst.get_args R = Except.ok (fremLinesC R) ∧
    (fremLinesC R).countP isFremLine = R + 1 ∧
    (fremLinesC R).countP isReloadLine = 2 * (R + 1) ∧
    (∀ i, i ≤ R →
      ["  %x" ++ (toString i ++ (" = load volatile " ++ ("float" ++ (", " ++ ("float" ++ "* @c42"))))),
       "  %y" ++ (toString i ++ (" = load volatile " ++ ("float" ++ (", " ++ ("float" ++ "* @c3"))))),
       "  %r" ++ (toString i ++ (" = frem " ++ ("float" ++ (" %x" ++ (toString i ++ (", %y" ++ toString i))))))]
        <:+: fremLinesC R) ∧
    (fremLinesC R).filter isStoreLine = ["  store volatile float %r0, float* @c42"] ∧
    genOutput fremInst R = Except.ok (linesContent (fremLinesC R)) := by
  refine ⟨fremGen_eval R, ?_, ?_, ?_, ?_, ?_⟩
  · unfold fremLinesC
    rw [List.countP_append, List.countP_append,
      countP_concatMapRange isFremLine _ 1 fremIter_frem_count (R + 1)]
    simp [List.countP_cons,
      show isFremLine "@c42 = global float 42.0" = false from by decide,
      show isFremLine "@c3  = global float  3.0" = false from by decide,
      show isFremLine "define i32 @main() #0 \x7b" = false from by decide,
      show isFremLine "entry:" = false from by decide,
      show isFremLine "  store volatile float %r0, float* @c42" = false from by decide,
      show isFremLine "  ret i32 0" = false from by decide,
      show isFremLine "\x7d" = false from by decide]
  · unfold fremLinesC
    rw [List.countP_append, List.countP_append,
      countP_concatMapRange isReloadLine _ 2 fremIter_reload_count (R + 1)]
    simp [List.countP_cons,
      show isReloadLine "@c42 = global float 42.0" = false from by decide,
      show isReloadLine "@c3  = global float  3.0" = false from by decide,
      show isReloadLine "define i32 @main() #0 \x7b" = false from by decide,
      show isReloadLine "entry:" = false from by decide,
      show isReloadLine "  store volatile float %r0, float* @c42" = false from by decide,
      show isReloadLine "  ret i32 0" = false from by decide,
      show isReloadLine "\x7d" = false from by decide]
    ring
  · intro i hi
    have htriple :
        ["  %x" ++ (toString i ++ (" = load volatile " ++ ("float" ++ (", " ++ ("float" ++ "* @c42"))))),
         "  %y" ++ (toString i ++ (" = load volatile " ++ ("float" ++ (", " ++ ("float" ++ "* @c3"))))),
         "  %r" ++ (toString i ++ (" = frem " ++ ("float" ++ (" %x" ++ (toString i ++ (", %y" ++ toString i))))))]
          <:+: fremIter "float" i :=
      ⟨[], ["  call void asm sideeffect \"\", \"x\"(" ++ ("float" ++ (" %r" ++ (toString i ++ ")"))), ""], rfl⟩
    exact isInfixAppL _ (isInfixAppR _
      (isInfixConcatMapRange (fremIter "float") (by omega : i < R + 1) htriple))
  · unfold fremLinesC
    rw [List.filter_append, List.filter_append,
      filter_concatMapRange_nil isStoreLine _ fremIter_store_none (R + 1)]
    simp [List.filter_cons,
      show isStoreLine "@c42 = global float 42.0" = false from by decide,
      show isStoreLine "@c3  = global float  3.0" = false from by decide,
      show isStoreLine "define i32 @main() #0 \x7b" = false from by decide,
      show isStoreLine "entry:" = false from by decide,
      show isStoreLine "  store volatile float %r0, float* @c42" = true from by decide,
      show isStoreLine "  ret i32 0" = false from by decide,
      show isStoreLine "\x7d" = false from by decide]
  · unfold genOutput
    rw [if_neg (by decide : ¬ fremInst.opcode = "br"),
      if_pos (show fremInst.opcode = "frem" from by decide), fremGen_eval]

theorem claim_C6_witness :
    fremGen fremInst.type fremInst.get_args 1 = Except.ok (fremLinesC 1) ∧
    (fremLinesC 1).countP isFremLine = 2 ∧
    (fremLinesC 1).countP isReloadLine = 4 ∧
    (["  %x" ++ (toString 0 ++ (" = load volatile " ++ ("float" ++ (", " ++ ("float" ++ "* @c42"))))),
      "  %y" ++ (toString 0 ++ (" = load volatile " ++ ("float" ++ (", " ++ ("float" ++ "* @c3"))))),
      "  %r" ++ (toString 0 ++ (" = frem " ++ ("float" ++ (" %x" ++ (toString 0 ++ (", %y" ++ toString 0))))))]
       <:+: fremLinesC 1) ∧
    (fremLinesC 1).filter isStoreLine = ["  store volatile float %r0, float* @c42"] := by
  have h := claim_C6 1 (by decide)
  exact ⟨h.1, h.2.1, h.2.2.1, h.2.2.2.1 0 (by decide), h.2.2.2.2.1⟩

/-- Claim C7: on the complex path, when the counter flag is unset, all
`R + 1` iteration bodies are byte-identical repeats of the execution
block; when it is set, every iteration's body is one common template
instantiated at the iteration-numbered binding name `%{i}` (so any two
bodies differ only in that binding name). -/
theorem claim_C7 (inst : Instruction) (R : Nat) (hR : 1 ≤ R) :
    (inst.cpx_use_counter = false →
      mapRange (complexIterChunk inst) (R + 1) =
        List.replicate (R + 1) ("  " ++ (inst.cpx_exec_block ++ "\n"))) ∧
    (inst.cpx_use_counter = true →
      ∃ segs : List String, 2 ≤ segs.length ∧ segs.head? = some "  " ∧
        ∀ i : Nat, complexIterChunk inst i =
          joinSep ("%" ++ toString i) segs) := by
  constructor
  · intro huc
    have hfun : complexIterChunk inst =
        fun _ => "  " ++ (inst.cpx_exec_block ++ "\n") :=
      funext fun i => by simp [complexIterChunk, huc]
    rw [hfun, mapRange_const]
  · intro huc
    by_cases hc : pyContains inst.cpx_exec_block "COUNTER" = true
    · have hne : pySplit inst.cpx_exec_block "COUNTER" ≠ [] := by
        unfold pySplit
        simp [splitSeqF_ne_nil]
      obtain ⟨s0, rest, hsr⟩ := List.exists_cons_of_ne_nil hne
      refine ⟨"  " :: appLast "\n" ((" = " ++ s0) :: rest), ?_, rfl, ?_⟩
      · have := appLast_length "\n" ((" = " ++ s0) :: rest)
        simp only [List.length_cons] at this ⊢
        omega
      · intro i
        have hne2 : appLast "\n" ((" = " ++ s0) :: rest) ≠ [] :=
          appLast_ne_nil _ _ (by simp)
        obtain ⟨c, l', hcl⟩ := List.exists_cons_of_ne_nil hne2
        rw [hcl, joinSep_cons_cons, ← hcl,
          joinSep_appLast _ _ _ (by simp), joinSep_pre]
        rw [← hsr]
        simp [complexIterChunk, huc, hc, pyReplace, String.append_assoc]
    · have hc' : pyContains inst.cpx_exec_block "COUNTER" = false :=
        Bool.not_eq_true _ ▸ eq_false_of_ne_true hc
      refine ⟨["  ", " = " ++ (inst.cpx_exec_block ++ "\n")], by simp, rfl, ?_⟩
      intro i
      rw [joinSep_cons_cons]
      simp [complexIterChunk, huc, hc', joinSep, String.append_assoc]

theorem claim_C7_witness :
    mapRange (complexIterChunk storeCpx) 2 =
      List.replicate 2 ("  " ++ (storeCpx.cpx_exec_block ++ "\n")) :=
  (claim_C7 storeCpx 1 (by decide)).1 rfl

/-- Claim C8, counterexample: with repetition count `0` the run still
performs a file-system operation — the destination directory is created
(first effect) before the repetition check. -/
theorem claim_C8_counterexample :
    (mainTrace 0).any isFileIO = true ∧
    (mainTrace 0).head? = some Effect.mkdir := by
  constructor
  · decide
  · decide

/-- Claim C8 (amended): for every non-positive repetition count the run
emits the usage diagnostic and writes no output files; however, the
destination directory is created (one directory-creation effect) before
the repetition check, so the rejection is not prior to all file I/O. -/
theorem claim_C8 (reps : Int) (h : reps ≤ 0) :
    mainTrace reps =
      [Effect.mkdir, Effect.stdout "Repetitions must be greater than 0"] ∧
    (mainTrace reps).countP isFileWrite = 0 := by
  have hneg : ¬ (0 < reps) := by omega
  constructor
  · unfold mainTrace
    rw [if_neg hneg]
  · unfold mainTrace
    rw [if_neg hneg]
    decide

theorem claim_C8_witness :
    mainTrace (-3) =
      [Effect.mkdir, Effect.stdout "Repetitions must be greater than 0"] ∧
    (mainTrace (-3)).countP isFileWrite = 0 :=
  claim_C8 (-3) (by decide)

theorem runGen_eq_lastWritten (wl : List Instruction) (R : Nat) :
    ∀ (fs : FS) (n : String), runGen wl R fs n =
      match lastWritten wl R n with
      | some v => some v
      | none => fs n := by
  induction wl with
  | nil => intro fs n; rfl
  | cons inst rest ih =>
    intro fs n
    unfold runGen lastWritten
    cases hg : genOutput inst R with
    | ok c =>
      dsimp only
      rw [ih (upd fs (fileName inst) c) n]
      cases lastWritten rest R n with
      | some v => rfl
      | none => by_cases hn : n = fileName inst <;> simp [upd, hn]
    | error p =>
      dsimp only
      by_cases hn : n = fileName inst <;> simp [upd, hn]

theorem mem_writtenNames_isSome (wl : List Instruction) (R : Nat) (n : String) :
    n ∈ writtenNames wl R → (lastWritten wl R n).isSome = true := by
  induction wl with
  | nil => intro h; simp [writtenNames] at h
  | cons inst rest ih =>
    intro h
    unfold writtenNames at h
    unfold lastWritten
    cases hg : genOutput inst R with
    | ok c =>
      rw [hg] at h
      dsimp only at h ⊢
      rcases List.mem_cons.mp h with h' | hm
      · subst h'
        cases lastWritten rest R (fileName inst) <;> simp
      · have hs := ih hm
        cases hlw : lastWritten rest R n with
        | some v => simp
        | none => rw [hlw] at hs; simp at hs
    | error p =>
      rw [hg] at h
      dsimp only at h ⊢
      simp at h
      subst h
      simp

/-- Claim C9: generation is deterministic — the content a run leaves in
each touched file does not depend on the pre-existing file-system
state, and running the generator a second time over the state the first
run produced changes nothing (byte-identical output files). -/
theorem claim_C9 (wl : List Instruction) (R : Nat) (fs fs' : FS) :
    (∀ n, n ∈ writtenNames wl R → runGen wl R fs n = runGen wl R fs' n) ∧
    runGen wl R (runGen wl R fs) = runGen wl R fs := by
  constructor
  · intro n hn
    have h1 := runGen_eq_lastWritten wl R fs n
    have h2 := runGen_eq_lastWritten wl R fs' n
    have hs := mem_writtenNames_isSome wl R n hn
    cases hlw : lastWritten wl R n with
    | some v => rw [hlw] at h1 h2; rw [h1, h2]
    | none => rw [hlw] at hs; simp at hs
  · funext n
    have h1 := runGen_eq_lastWritten wl R (runGen wl R fs) n
    have h2 := runGen_eq_lastWritten wl R fs n
    cases hlw : lastWritten wl R n with
    | some v => rw [hlw] at h1 h2; rw [h1, h2]
    | none => rw [hlw] at h1; exact h1

theorem claim_C9_witness :
    ("add.ll" ∈ writtenNames [addInst] 1) ∧
    runGen [addInst] 1 fsA "add.ll" = runGen [addInst] 1 fsB "add.ll" := by
  have hm : "add.ll" ∈ writtenNames [addInst] 1 := by decide
  exact ⟨hm, (claim_C9 [addInst] 1 fsA fsB).1 "add.ll" hm⟩

/-- Claim C10, counterexample: a `frem` descriptor whose operand list
has one element — the literal `"1,2"`, which contains a comma — splits
into two parts, so generation succeeds instead of failing. -/
theorem claim_C10_counterexample : genSucceeds fremCommaInst 1 = true := by
  decide

theorem strMk_toList (s : String) : String.mk s.toList = s := by
  cases s
  rfl

theorem fremGen_single (ty a : String) (R : Nat)
    (hc : ∀ c ∈ a.toList, c ≠ ',') :
    fremGen ty a R = Except.error ["@c42 = global " ++ (ty ++ (" " ++ a))] := by
  have hsp : pySplit a "," = [a] := by
    unfold pySplit
    rw [show (",".toList) = [','] from rfl,
      splitSeqF_single ',' a.toList.length a.toList hc]
    simp [strMk_toList]
  unfold fremGen
  rw [hsp]
  rfl

/-- Claim C10 (amended): a `frem` descriptor whose operand list is
empty, or consists of one literal containing no comma, fails with the
out-of-range lookup of the second operand after the first global line
has been written, so a one-line partial file is left on disk. -/
theorem claim_C10 (ty a : String) (R : Nat) (fs : FS)
    (hc : ∀ c ∈ a.toList, c ≠ ',') :
    genOutput (Instruction.make "frem" ty [a] none) R =
      Except.error (linesContent ["@c42 = global " ++ (ty ++ (" " ++ a))]) ∧
    runGen [Instruction.make "frem" ty [a] none] R fs
      (fileName (Instruction.make "frem" ty [a] none)) =
      some (linesContent ["@c42 = global " ++ (ty ++ (" " ++ a))]) ∧
    genOutput (Instruction.make "frem" ty [] none) R =
      Except.error (linesContent ["@c42 = global " ++ (ty ++ " ")]) := by
  have hmain : genOutput (Instruction.make "frem" ty [a] none) R =
      Except.error (linesContent ["@c42 = global " ++ (ty ++ (" " ++ a))]) := by
    have hop : (Instruction.make "frem" ty [a] none).opcode = "frem" := rfl
    have hty : (Instruction.make "frem" ty [a] none).type = ty := rfl
    have hargs : (Instruction.make "frem" ty [a] none).get_args = a := rfl
    unfold genOutput
    rw [hop, hty, hargs, if_neg (by decide : ¬ ("frem" : String) = "br"),
      if_pos (by decide : ("frem" : String) = "frem"), fremGen_single ty a R hc]
  refine ⟨hmain, ?_, ?_⟩
  · unfold runGen
    rw [hmain]
    dsimp only
    simp [upd]
  · have hop : (Instruction.make "frem" ty [] none).opcode = "frem" := rfl
    have hty : (Instruction.make "frem" ty [] none).type = ty := rfl
    have hargs : (Instruction.make "frem" ty [] none).get_args = "" := rfl
    unfold genOutput
    rw [hop, hty, hargs, if_neg (by decide : ¬ ("frem" : String) = "br"),
      if_pos (by decide : ("frem" : String) = "frem")]
    rw [show fremGen ty "" R =
        Except.error ["@c42 = global " ++ (ty ++ (" " ++ ""))] from rfl]
    rw [show (" " ++ "" : String) = " " from by decide]

theorem claim_C10_witness :
    genOutput (Instruction.make "frem" "float" ["42.0"] none) 1 =
      Except.error (linesContent ["@c42 = global " ++ ("float" ++ (" " ++ "42.0"))]) ∧
    runGen [Instruction.make "frem" "float" ["42.0"] none] 1 fsA
      (fileName (Instruction.make "frem" "float" ["42.0"] none)) =
      some (linesContent ["@c42 = global " ++ ("float" ++ (" " ++ "42.0"))]) ∧
    genOutput (Instruction.make "frem" "float" [] none) 1 =
      Except.error (linesContent ["@c42 = global " ++ ("float" ++ " ")]) :=
  claim_C10 "float" "42.0" 1 fsA (by decide)
